import Mathlib

/-!
Verification of the path/name derivation, validation, authentication and
route-level error-handling logic of the wedding-file-upload backend.

The JavaScript sources are embedded shallowly:

* pure string helpers from `src/utils/fileUtils.js` become Lean functions on
  `String` / `List Char`;
* the impure inputs of `generateFileName` (`new Date().toISOString()` and
  `uuidv4()`) become explicit string parameters;
* the remote storage client (Supabase) becomes an explicit outcome oracle,
  so route handlers become pure functions of their request data and the
  oracle's answers.

JavaScript `String.prototype.toLowerCase` performs full Unicode case
mapping; it is modelled here on the Basic Latin range (`A`-`Z`), which is
the only range that can influence the claims at issue: every character
that is not lower-case ASCII alphanumeric, JS whitespace or a hyphen is
stripped immediately after lowering, and all concrete inputs appearing in
the claims are ASCII.
-/

/-- Code points matched by the JavaScript regex class `\s`:
tab, LF, VT, FF, CR, space, NBSP, Ogham space mark, the U+2000–U+200A
range, LS, PS, narrow NBSP, medium mathematical space, ideographic space
and the BOM. -/
def jsWhitespace (c : Char) : Bool :=
  c.toNat = 9 || c.toNat = 10 || c.toNat = 11 || c.toNat = 12 ||
  c.toNat = 13 || c.toNat = 32 || c.toNat = 160 || c.toNat = 5760 ||
  (8192 ≤ c.toNat && c.toNat ≤ 8202) || c.toNat = 8232 ||
  c.toNat = 8233 || c.toNat = 8239 || c.toNat = 8287 ||
  c.toNat = 12288 || c.toNat = 65279

/-- Characters matched by the JavaScript regex class `[a-z0-9]`. -/
def isLowerAlnum (c : Char) : Bool :=
  (97 ≤ c.toNat && c.toNat ≤ 122) || (48 ≤ c.toNat && c.toNat ≤ 57)

/-- JavaScript `toLowerCase`, modelled on the ASCII range (see module
comment). -/
def jsToLower (c : Char) : Char :=
  if 65 ≤ c.toNat ∧ c.toNat ≤ 90 then Char.ofNat (c.toNat + 32) else c

/-- A character kept by `.replace(/[^a-z0-9\s-]/g, '')`. -/
def keepChar (c : Char) : Bool :=
  isLowerAlnum c || jsWhitespace c || c = '-'

/-- One pass of a JavaScript `.replace(/X+/g, r)` for a character class
`X`: every maximal run of characters satisfying `p` is replaced by the
single character `r`.  The boolean argument records whether the previous
character belonged to a run. -/
def collapseRunsAux (p : Char → Bool) (r : Char) : Bool → List Char → List Char
  | _, [] => []
  | inRun, c :: cs =>
    if p c then
      if inRun then collapseRunsAux p r true cs
      else r :: collapseRunsAux p r true cs
    else c :: collapseRunsAux p r false cs

/-- Replace every maximal run of `p`-characters by the single character
`r` (JavaScript `.replace(/X+/g, r)`). -/
def collapseRuns (p : Char → Bool) (r : Char) (l : List Char) : List Char :=
  collapseRunsAux p r false l

/-- Drop one leading hyphen, if present. -/
def dropLeadHyphen (l : List Char) : List Char :=
  if l.head? = some '-' then l.tail else l

/-- Drop one trailing hyphen, if present. -/
def dropTrailHyphen (l : List Char) : List Char :=
  if l.getLast? = some '-' then l.dropLast else l

/-- JavaScript `.replace(/^-|-$/g, '')`: the global regex consumes one
leading hyphen (if any) and one trailing hyphen of what remains. -/
def trimEdgeHyphens (l : List Char) : List Char :=
  dropTrailHyphen (dropLeadHyphen l)

/-- `sanitizeVenueName` from `src/utils/fileUtils.js`:
lower-case, strip characters outside `[a-z0-9\s-]`, replace whitespace
runs by a hyphen, collapse hyphen runs, trim one leading/trailing
hyphen. -/
def sanitizeVenueName (venueName : String) : String :=
  ⟨trimEdgeHyphens
    (collapseRuns (· = '-') '-'
      (collapseRuns jsWhitespace '-'
        ((venueName.data.map jsToLower).filter keepChar)))⟩

/-- The inline category sanitizer
`category.toLowerCase().replace(/[^a-z0-9]/g, '')` appearing in
`generateFileName` and `generateFolderPath`. -/
def sanitizeCategory (category : String) : String :=
  ⟨(category.data.map jsToLower).filter isLowerAlnum⟩

/-- JavaScript `String.prototype.slice(a, b)` for `0 ≤ a ≤ b`. -/
def jsSlice (s : String) (a b : Nat) : String :=
  ⟨(s.data.take b).drop a⟩

/-- The character map of `.replace(/[:.]/g, '-')`. -/
def replaceColonDot (c : Char) : Char :=
  if c = ':' || c = '.' then '-' else c

/-- The timestamp computed in `generateFileName`:
`new Date().toISOString().replace(/[:.]/g, '-').slice(0, 19)`, as a
function of the ISO string the `Date` produced. -/
def jsTimestampFormat (iso : String) : String :=
  jsSlice ⟨iso.data.map replaceColonDot⟩ 0 19

/-- State of the character scan of Node's `path.extname` (posix). -/
structure ExtScan where
  startDot : Int
  startPart : Nat
  endIdx : Int
  matchedSlash : Bool
  preDotState : Int
  done : Bool

/-- The right-to-left scan of Node's `path.extname`; the `Nat` argument is
the number of leading characters still to visit, so index `i` is visited
when the argument is `i + 1`.  The `done` flag models the `break` on the
first path separator. -/
def extScanLoop (s : List Char) : Nat → ExtScan → ExtScan
  | 0, st => st
  | i + 1, st =>
    if st.done then st
    else
      let c := s.getD i ' '
      if c = '/' then
        if !st.matchedSlash then
          extScanLoop s i { st with startPart := i + 1, done := true }
        else extScanLoop s i st
      else
        let st1 :=
          if st.endIdx = -1 then
            { st with matchedSlash := false, endIdx := (i : Int) + 1 }
          else st
        let st2 :=
          if c = '.' then
            if st1.startDot = -1 then { st1 with startDot := (i : Int) }
            else if st1.preDotState ≠ 1 then { st1 with preDotState := 1 }
            else st1
          else if st1.startDot ≠ -1 then { st1 with preDotState := -1 }
          else st1
        extScanLoop s i st2

/-- Node's `path.extname` (posix), ported from its character scan. -/
def extname (p : String) : String :=
  let s := p.data
  let st := extScanLoop s s.length ⟨-1, 0, -1, true, 0, false⟩
  if st.startDot = -1 ∨ st.endIdx = -1 ∨ st.preDotState = 0 ∨
     (st.preDotState = 1 ∧ st.startDot = st.endIdx - 1 ∧
      st.startDot = (st.startPart : Int) + 1)
  then ""
  else ⟨(s.take st.endIdx.toNat).drop st.startDot.toNat⟩

/-- JavaScript `toLowerCase` on a whole string (see `jsToLower`). -/
def jsToLowerString (s : String) : String :=
  ⟨s.data.map jsToLower⟩

/-- `generateFileName` from `src/utils/fileUtils.js`.  The two impure
reads — `new Date().toISOString()` and `uuidv4()` — are passed in as the
`nowISO` and `uuid` arguments; everything else follows the source:

`venue_[category_]timestamp_uniqueId` plus the lower-cased extension of
the original name, where `timestamp` is `jsTimestampFormat nowISO` and
`uniqueId` is `uuid.slice(0, 8)`. -/
def generateFileName (venueName originalName : String) (category : String)
    (nowISO uuid : String) : String :=
  let sanitizedVenue := sanitizeVenueName venueName
  let timestamp := jsTimestampFormat nowISO
  let extension := jsToLowerString (extname originalName)
  let uniqueId := jsSlice uuid 0 8
  let fileName :=
    if category = "" then
      sanitizedVenue ++ "_" ++ timestamp ++ "_" ++ uniqueId
    else
      sanitizedVenue ++ "_" ++ sanitizeCategory category ++ "_" ++
        timestamp ++ "_" ++ uniqueId
  fileName ++ extension

/-- `generateFolderPath` from `src/utils/fileUtils.js`. -/
def generateFolderPath (venueName : String) (category : String) : String :=
  let sanitizedVenue := sanitizeVenueName venueName
  if category = "" then sanitizedVenue
  else sanitizedVenue ++ "/" ++ sanitizeCategory category

/-- JavaScript `String.prototype.startsWith`. -/
def jsStartsWith (s pre : String) : Bool :=
  pre.data.isPrefixOf s.data

/-- Whether `sub` occurs as a contiguous run inside the second list. -/
def infixAt (sub : List Char) : List Char → Bool
  | [] => sub.isEmpty
  | c :: t => sub.isPrefixOf (c :: t) || infixAt sub t

/-- JavaScript `String.prototype.includes` (substring containment). -/
def jsIncludes (s sub : String) : Bool :=
  infixAt sub.data s.data

/-- `validateFileType` from `src/utils/fileUtils.js`. -/
def validateFileType (mimeType : String) (allowedTypes : List String) : Bool :=
  allowedTypes.contains mimeType

/-- `validateFileSize` from `src/utils/fileUtils.js`. -/
def validateFileSize (fileSize maxSize : Nat) : Bool :=
  fileSize ≤ maxSize

/-- `getFileCategory` from `src/utils/fileUtils.js`. -/
def getFileCategory (mimeType : String) : String :=
  if jsStartsWith mimeType "image/" then "image"
  else if mimeType = "application/pdf" || jsIncludes mimeType "document" ||
       jsIncludes mimeType "word" then "document"
  else "other"

/-- JavaScript falsiness of an optional string value: `undefined` and the
empty string are falsy. -/
def jsFalsy : Option String → Bool
  | none => true
  | some s => s = ""

/-- Split a character list at every occurrence of `sep`, keeping empty
groups, as JavaScript `String.prototype.split` does with a single-character
separator. -/
def splitOnChar (sep : Char) : List Char → List (List Char)
  | [] => [[]]
  | c :: cs =>
    if c = sep then [] :: splitOnChar sep cs
    else
      match splitOnChar sep cs with
      | [] => [[c]]
      | g :: gs => (c :: g) :: gs

/-- JavaScript `.split(' ')`. -/
def jsSplitSpace (s : String) : List String :=
  (splitOnChar ' ' s.data).map (fun l => ⟨l⟩)

/-- The token expression of `src/middleware/auth.js`:
`authHeader && authHeader.split(' ')[1] || queryToken`.  A missing or
empty header, or a header without a second space-separated part, falls
through to the query parameter. -/
def extractToken (authHeader queryToken : Option String) : Option String :=
  let lhs : Option String :=
    match authHeader with
    | none => none
    | some h => if h = "" then some "" else (jsSplitSpace h).get? 1
  if jsFalsy lhs then queryToken else lhs

/-- Outcome of the `authenticateToken` middleware of
`src/middleware/auth.js`, one constructor per response it can send plus
one for calling `next()`. -/
inductive AuthResult where
  | missingCredential    -- 401 'Access token required'
  | serverMisconfigured  -- 500 'Server configuration error'
  | invalidCredential    -- 403 'Invalid access token'
  | authorized           -- next()
deriving DecidableEq

/-- `authenticateToken` from `src/middleware/auth.js`, as a function of
the Authorization header, the `token` query parameter and the
`ACCESS_TOKEN` environment variable (each possibly absent). -/
def authenticateToken (authHeader queryToken accessToken : Option String) :
    AuthResult :=
  let token := extractToken authHeader queryToken
  if jsFalsy token then .missingCredential
  else if jsFalsy accessToken then .serverMisconfigured
  else if token ≠ accessToken then .invalidCredential
  else .authorized

/-- A multer file record as consumed by `uploadFilesToBucket`
(`src/routes/upload.js`); the byte content itself plays no role in any
claim and is omitted. -/
structure JsFile where
  originalname : String
  mimetype : String
  size : Nat
deriving DecidableEq

/-- Outcome of one remote storage call (`supabase.storage...`): either it
succeeds or it returns an error object with a message. -/
inductive StorageOutcome where
  | ok
  | err (msg : String)
deriving DecidableEq

/-- One entry of the `uploadResults` array built by
`uploadFilesToBucket`.  Fields present only on one of the two branches of
the source are `Option`s; the `url`, `formattedSize` and `uploadedAt`
fields (derived from the storage client, `Math.log` floating point and
the wall clock) are referenced by no claim and omitted. -/
structure UploadResult where
  originalName : String
  fileName : Option String := none
  filePath : Option String := none
  size : Option Nat := none
  mimeType : Option String := none
  category : Option String := none
  success : Bool
  error : Option String := none
deriving DecidableEq

/-- The per-file body of the loop in `uploadFilesToBucket`
(`src/routes/upload.js`): derive folder and file name, attempt the
storage upload (the oracle `storage` gives the outcome of the i-th remote
call, `env i` the ISO timestamp and uuid drawn while naming the i-th
file), and build the per-file result record. -/
def uploadOneFile (storage : Nat → StorageOutcome) (venueName category : String)
    (env : Nat → String × String) (i : Nat) (f : JsFile) : UploadResult :=
  let folderPath := generateFolderPath venueName category
  let fileName := generateFileName venueName f.originalname category
    (env i).1 (env i).2
  let filePath := folderPath ++ "/" ++ fileName
  match storage i with
  | .err m =>
    { originalName := f.originalname, success := false, error := some m }
  | .ok =>
    { originalName := f.originalname, fileName := some fileName,
      filePath := some filePath, size := some f.size,
      mimeType := some f.mimetype,
      category := some (getFileCategory f.mimetype), success := true }

/-- The `for (const file of files)` loop of `uploadFilesToBucket`,
starting at position `i`. -/
def uploadFilesGo (storage : Nat → StorageOutcome) (venueName category : String)
    (env : Nat → String × String) : Nat → List JsFile → List UploadResult
  | _, [] => []
  | i, f :: fs =>
    uploadOneFile storage venueName category env i f ::
      uploadFilesGo storage venueName category env (i + 1) fs

/-- `uploadFilesToBucket` from `src/routes/upload.js`.  The `category`
parameter defaults to the empty string when the caller passes
`undefined`, as the JS default parameter does. -/
def uploadFilesToBucket (storage : Nat → StorageOutcome)
    (venueName : String) (category? : Option String)
    (env : Nat → String × String) (files : List JsFile) : List UploadResult :=
  uploadFilesGo storage venueName (category?.getD "") env 0 files

/-- The successful response body of `POST /api/upload/photos`
(`src/routes/upload.js`), restricted to the fields claims reference. -/
structure PhotosResponse where
  success : Bool
  uploads : List UploadResult
  bucket : String
  venue : String
  category : String
deriving DecidableEq

/-- The `POST /api/upload/photos` handler after the upload middleware:
reject a missing/empty venue name with a 400, otherwise upload all files
and answer with `category: category || 'general'`.  (`venueName?` and
`category?` are the possibly-absent body fields.) -/
def photosHandler (storage : Nat → StorageOutcome)
    (env : Nat → String × String) (bucketPhotos : String)
    (venueName? category? : Option String) (files : List JsFile) :
    Except String PhotosResponse :=
  if jsFalsy venueName? then .error "Venue name required"
  else
    let v := venueName?.getD ""
    let uploadResults := uploadFilesToBucket storage v category? env files
    .ok { success := true, uploads := uploadResults, bucket := bucketPhotos,
          venue := v,
          category := if jsFalsy category? then "general"
                      else category?.getD "" }

/-- Insertion into the `venues` JS `Set`, preserving first-insertion
order. -/
def addToSet (acc : List String) (v : String) : List String :=
  if v ∈ acc then acc else acc ++ [v]

/-- The body of the per-bucket loop of `GET /api/venues`
(`src/routes/venues.js`): a failed listing is logged and skipped
(`continue`); otherwise every entry whose name is truthy and contains no
`.` is added to the venue set. -/
def collectVenues (listOutcome : String → Except String (List String)) :
    List String → List String → List String
  | acc, [] => acc
  | acc, b :: bs =>
    match listOutcome b with
    | .error _ => collectVenues listOutcome acc bs
    | .ok names =>
      collectVenues listOutcome
        (names.foldl
          (fun a n => if n ≠ "" ∧ jsIncludes n "." = false then addToSet a n
                      else a) acc) bs

/-- Response of `GET /api/venues`, restricted to the fields claims
reference. -/
structure VenuesResponse where
  success : Bool
  venues : List String
  count : Nat
deriving DecidableEq

/-- The `GET /api/venues` handler (`src/routes/venues.js`): list every
bucket (the oracle gives each listing's outcome, an error object or the
entry names), collect folder-looking names, sort, and answer
successfully. -/
def listVenuesHandler (buckets : List String)
    (listOutcome : String → Except String (List String)) : VenuesResponse :=
  let venueList :=
    (collectVenues listOutcome [] buckets).mergeSort
      (fun a b => !decide (b < a))
  { success := true, venues := venueList, count := venueList.length }

/-- Outcome of the `DELETE /api/venues/:venueName/files/:bucket/:fileName`
handler (`src/routes/venues.js`). -/
inductive DeleteResponse where
  | invalidBucket                 -- 400 'Invalid bucket'
  | deleteFailed                  -- 500 'Delete failed'
  | deleted (filePath : String)   -- 200, with deletedFile.filePath
deriving DecidableEq

/-- The delete handler: reject a bucket outside `BUCKETS` with a 400;
otherwise ask the storage client to remove `venueName/fileName`, and turn
a returned error into a whole-request 500. -/
def deleteFileHandler (buckets : List String)
    (venueName bucket fileName : String)
    (removeOutcome : String → StorageOutcome) : DeleteResponse :=
  if ¬ buckets.contains bucket then .invalidBucket
  else
    let filePath := venueName ++ "/" ++ fileName
    match removeOutcome filePath with
    | .err _ => .deleteFailed
    | .ok => .deleted filePath

example : sanitizeVenueName "Grand Ballroom!!" = "grand-ballroom" := by decide
example : sanitizeVenueName "  --Multi   Space--  " = "multi-space" := by decide
example : sanitizeVenueName "Oakview Manor" = "oakview-manor" := by decide
example : extname "menu.pdf" = ".pdf" := by decide
example : extname "archive" = "" := by decide
example : extname ".bashrc" = "" := by decide
example : extname "a/b.c/d" = "" := by decide
example : extname "index." = "." := by decide
example : getFileCategory "image/png" = "image" := by decide
example : getFileCategory "application/pdf" = "document" := by decide
example : getFileCategory "text/csv" = "other" := by decide
example : generateFolderPath "The Grand Hotel" "Ceremony" = "the-grand-hotel/ceremony" := by decide
example : jsTimestampFormat "2026-10-11T12:00:00.123Z" = "2026-10-11T12-00-00" := by decide
example :
    generateFileName "Oakview Manor" "menu.pdf" "" "2026-10-11T12:00:00.123Z"
      "0a1b2c3d-4e5f-6071-8293-a4b5c6d7e8f9" =
    "oakview-manor_2026-10-11T12-00-00_0a1b2c3d.pdf" := by decide

/-- The claim's output regular expression `^[a-z0-9]+(-[a-z0-9]+)*$`,
run as a scanner: `required` records whether the next character must be
alphanumeric (at the start and right after a hyphen). -/
def shapeRun : Bool → List Char → Bool
  | required, [] => !required
  | required, c :: rest =>
    if c = '-' then !required && shapeRun true rest
    else isLowerAlnum c && shapeRun false rest

/-- Whether a character list matches `^[a-z0-9]+(-[a-z0-9]+)*$`. -/
def matchesVenueShape (l : List Char) : Bool :=
  !l.isEmpty && shapeRun true l

example : matchesVenueShape "grand-ballroom".data = true := by decide
example : matchesVenueShape "multi-space".data = true := by decide
example : matchesVenueShape "a--b".data = false := by decide
example : matchesVenueShape "-a".data = false := by decide
example : matchesVenueShape "a-".data = false := by decide
example : matchesVenueShape "".data = false := by decide

/-- A character that can appear in a sanitized venue name: lower-case
ASCII alphanumeric or a hyphen. -/
def goodChar (c : Char) : Prop := isLowerAlnum c = true ∨ c = '-'

/-- No two adjacent hyphens. -/
def NoHyphenRun (l : List Char) : Prop :=
  l.Chain' fun a b => ¬(a = '-' ∧ b = '-')

theorem goodChar_not_ws {c : Char} (h : goodChar c) : jsWhitespace c = false := by
  rcases h with h | rfl
  · simp only [isLowerAlnum, Bool.or_eq_true, Bool.and_eq_true,
      decide_eq_true_eq] at h
    simp only [jsWhitespace, Bool.or_eq_false_iff, Bool.and_eq_false_iff,
      decide_eq_false_iff_not, Bool.not_eq_true]
    omega
  · decide

theorem goodChar_toLower_fixed {c : Char} (h : goodChar c) : jsToLower c = c := by
  rcases h with h | rfl
  · simp only [isLowerAlnum, Bool.or_eq_true, Bool.and_eq_true,
      decide_eq_true_eq] at h
    unfold jsToLower
    rw [if_neg]
    omega
  · decide

theorem goodChar_keep {c : Char} (h : goodChar c) : keepChar c = true := by
  rcases h with h | rfl
  · simp [keepChar, h]
  · decide

theorem mem_collapseRunsAux {p : Char → Bool} {r : Char} :
    ∀ {b : Bool} {l : List Char} {c : Char}, c ∈ collapseRunsAux p r b l →
      c = r ∨ (c ∈ l ∧ p c = false) := by
  intro b l
  induction l generalizing b with
  | nil => intro c h; simp [collapseRunsAux] at h
  | cons a t ih =>
    intro c h
    by_cases hp : p a
    · cases b with
      | true =>
        simp only [collapseRunsAux, hp, if_true] at h
        rcases ih h with h1 | ⟨h2, h3⟩
        · exact Or.inl h1
        · exact Or.inr ⟨List.mem_cons_of_mem _ h2, h3⟩
      | false =>
        simp only [collapseRunsAux, hp, if_true] at h
        rcases List.mem_cons.mp h with rfl | h'
        · exact Or.inl rfl
        · rcases ih h' with h1 | ⟨h2, h3⟩
          · exact Or.inl h1
          · exact Or.inr ⟨List.mem_cons_of_mem _ h2, h3⟩
    · have hp' : p a = false := by simpa using hp
      simp only [collapseRunsAux, hp', Bool.false_eq_true, if_false] at h
      rcases List.mem_cons.mp h with rfl | h'
      · exact Or.inr ⟨List.mem_cons_self _ _, hp'⟩
      · rcases ih h' with h1 | ⟨h2, h3⟩
        · exact Or.inl h1
        · exact Or.inr ⟨List.mem_cons_of_mem _ h2, h3⟩

theorem head_collapseRunsAux_true {p : Char → Bool} {r : Char} :
    ∀ {l : List Char} {c : Char},
      (collapseRunsAux p r true l).head? = some c → p c = false := by
  intro l
  induction l with
  | nil => intro c h; simp [collapseRunsAux] at h
  | cons a t ih =>
    intro c h
    by_cases hp : p a
    · simp only [collapseRunsAux, hp, if_true] at h
      exact ih h
    · have hp' : p a = false := by simpa using hp
      simp only [collapseRunsAux, hp', Bool.false_eq_true, if_false,
        List.head?_cons, Option.some.injEq] at h
      exact h ▸ hp'

theorem chain'_collapseHyphens :
    ∀ (b : Bool) (l : List Char), NoHyphenRun (collapseRunsAux (· = '-') '-' b l) := by
  intro b l
  induction l generalizing b with
  | nil => cases b <;> simp [collapseRunsAux, NoHyphenRun]
  | cons a t ih =>
    by_cases hp : a = '-'
    · subst hp
      have hd : decide (('-' : Char) = '-') = true := by decide
      cases b with
      | true =>
        simpa only [collapseRunsAux, hd, if_true] using ih true
      | false =>
        simp only [collapseRunsAux, hd, if_true]
        refine List.chain'_cons'.mpr ⟨?_, ih true⟩
        intro y hy
        have hpy := head_collapseRunsAux_true (p := (· = '-')) (r := '-') hy
        simp only [decide_eq_false_iff_not] at hpy
        exact fun hcon => hpy hcon.2
    · have hp' : decide (a = '-') = false := by simpa using hp
      cases b with
      | true =>
        simp only [collapseRunsAux, hp', Bool.false_eq_true, if_false]
        refine List.chain'_cons'.mpr ⟨?_, ih false⟩
        exact fun y _ hcon => hp hcon.1
      | false =>
        simp only [collapseRunsAux, hp', Bool.false_eq_true, if_false]
        refine List.chain'_cons'.mpr ⟨?_, ih false⟩
        exact fun y _ hcon => hp hcon.1

theorem chain'_tail_char {R : Char → Char → Prop} {l : List Char}
    (h : l.Chain' R) : l.tail.Chain' R := by
  cases l with
  | nil => simp
  | cons a t => exact (List.chain'_cons'.mp h).2

theorem chain'_dropLast_char {R : Char → Char → Prop} {l : List Char}
    (h : l.Chain' R) : l.dropLast.Chain' R := by
  cases hl : l with
  | nil => simp
  | cons a t =>
    rw [← hl]
    have hne : l ≠ [] := by simp [hl]
    have hdec := List.dropLast_append_getLast hne
    rw [← hdec] at h
    exact (List.chain'_append.mp h).1

theorem head?_dropLast_eq {l : List Char} {c : Char}
    (h : l.dropLast.head? = some c) : l.head? = some c := by
  match l with
  | [] => simp at h
  | [a] => simp at h
  | a :: b :: t => simpa using h

theorem getLast?_dropLast_not_hyphen {l : List Char}
    (hc : NoHyphenRun l) (hl : l.getLast? = some '-') :
    l.dropLast.getLast? ≠ some '-' := by
  intro hbad
  have hne : l ≠ [] := by
    intro h; rw [h] at hl; simp at hl
  have hdec := List.dropLast_append_getLast? _ hl
  rw [← hdec] at hc
  have := (List.chain'_append.mp hc).2.2
  exact this '-' hbad '-' (by simp) ⟨rfl, rfl⟩

theorem dropLeadHyphen_subset {l : List Char} {c : Char}
    (h : c ∈ dropLeadHyphen l) : c ∈ l := by
  unfold dropLeadHyphen at h
  split at h
  · exact List.tail_subset l h
  · exact h

theorem dropTrailHyphen_subset {l : List Char} {c : Char}
    (h : c ∈ dropTrailHyphen l) : c ∈ l := by
  unfold dropTrailHyphen at h
  split at h
  · exact List.dropLast_subset _ h
  · exact h

theorem trimEdgeHyphens_subset {l : List Char} {c : Char}
    (h : c ∈ trimEdgeHyphens l) : c ∈ l :=
  dropLeadHyphen_subset (dropTrailHyphen_subset h)

theorem dropLeadHyphen_chain' {l : List Char} (h : NoHyphenRun l) :
    NoHyphenRun (dropLeadHyphen l) := by
  unfold dropLeadHyphen
  split
  · exact chain'_tail_char h
  · exact h

theorem dropTrailHyphen_chain' {l : List Char} (h : NoHyphenRun l) :
    NoHyphenRun (dropTrailHyphen l) := by
  unfold dropTrailHyphen
  split
  · exact chain'_dropLast_char h
  · exact h

theorem trimEdgeHyphens_chain' {l : List Char} (h : NoHyphenRun l) :
    NoHyphenRun (trimEdgeHyphens l) :=
  dropTrailHyphen_chain' (dropLeadHyphen_chain' h)

theorem dropLeadHyphen_head {l : List Char} (h : NoHyphenRun l) :
    (dropLeadHyphen l).head? ≠ some '-' := by
  unfold dropLeadHyphen
  by_cases hh : l.head? = some '-'
  · rw [if_pos hh]
    cases l with
    | nil => simp at hh
    | cons a t =>
      simp only [List.head?_cons, Option.some.injEq] at hh
      subst hh
      have hfirst := (List.chain'_cons'.mp h).1
      intro hbad
      simp only [List.tail_cons] at hbad
      exact hfirst '-' hbad ⟨rfl, rfl⟩
  · rw [if_neg hh]
    exact hh

theorem dropTrailHyphen_head {l : List Char} (h : l.head? ≠ some '-') :
    (dropTrailHyphen l).head? ≠ some '-' := by
  unfold dropTrailHyphen
  split
  · intro hbad
    exact h (head?_dropLast_eq hbad)
  · exact h

theorem trimEdgeHyphens_head {l : List Char} (h : NoHyphenRun l) :
    (trimEdgeHyphens l).head? ≠ some '-' :=
  dropTrailHyphen_head (dropLeadHyphen_head h)

theorem dropTrailHyphen_getLast {l : List Char} (h : NoHyphenRun l) :
    (dropTrailHyphen l).getLast? ≠ some '-' := by
  unfold dropTrailHyphen
  by_cases hl : l.getLast? = some '-'
  · rw [if_pos hl]
    exact getLast?_dropLast_not_hyphen h hl
  · rw [if_neg hl]
    exact hl

theorem trimEdgeHyphens_getLast {l : List Char} (h : NoHyphenRun l) :
    (trimEdgeHyphens l).getLast? ≠ some '-' :=
  dropTrailHyphen_getLast (dropLeadHyphen_chain' h)

theorem sanitize_data_eq (s : String) :
    (sanitizeVenueName s).data =
      trimEdgeHyphens (collapseRuns (· = '-') '-'
        (collapseRuns jsWhitespace '-'
          ((s.data.map jsToLower).filter keepChar))) := rfl

theorem mem_sanitize_good {s : String} {c : Char}
    (h : c ∈ (sanitizeVenueName s).data) : goodChar c := by
  rw [sanitize_data_eq] at h
  have h1 := trimEdgeHyphens_subset h
  rcases mem_collapseRunsAux h1 with rfl | ⟨h2, _⟩
  · exact Or.inr rfl
  · rcases mem_collapseRunsAux h2 with rfl | ⟨h3, hws⟩
    · exact Or.inr rfl
    · have hk : keepChar c = true := (List.mem_filter.mp h3).2
      simp only [keepChar, Bool.or_eq_true, decide_eq_true_eq] at hk
      rcases hk with (ha | hw) | hh
      · exact Or.inl ha
      · rw [hw] at hws; cases hws
      · exact Or.inr hh

theorem sanitize_chain' (s : String) : NoHyphenRun (sanitizeVenueName s).data := by
  rw [sanitize_data_eq]
  exact trimEdgeHyphens_chain' (chain'_collapseHyphens false _)

theorem sanitize_head (s : String) :
    (sanitizeVenueName s).data.head? ≠ some '-' := by
  rw [sanitize_data_eq]
  exact trimEdgeHyphens_head (chain'_collapseHyphens false _)

theorem sanitize_getLast (s : String) :
    (sanitizeVenueName s).data.getLast? ≠ some '-' := by
  rw [sanitize_data_eq]
  exact trimEdgeHyphens_getLast (chain'_collapseHyphens false _)

theorem collapseRunsAux_id {p : Char → Bool} {r : Char} :
    ∀ (b : Bool) (l : List Char), (∀ c ∈ l, p c = false) →
      collapseRunsAux p r b l = l := by
  intro b l
  induction l generalizing b with
  | nil => intro _; cases b <;> rfl
  | cons a t ih =>
    intro h
    have ha : p a = false := h a (List.mem_cons_self a t)
    cases b <;>
      simp only [collapseRunsAux, ha, Bool.false_eq_true, if_false,
        List.cons.injEq, true_and] <;>
      exact ih false (fun c hc => h c (List.mem_cons_of_mem _ hc))

theorem collapseHyphens_id : ∀ {l : List Char}, NoHyphenRun l →
    collapseRunsAux (· = '-') '-' false l = l ∧
    (l.head? ≠ some '-' → collapseRunsAux (· = '-') '-' true l = l) := by
  intro l
  induction l with
  | nil => intro _; exact ⟨rfl, fun _ => rfl⟩
  | cons a t ih =>
    intro h
    have hch := List.chain'_cons'.mp h
    obtain ⟨ihf, iht⟩ := ih hch.2
    by_cases ha : a = '-'
    · subst ha
      have hhead : t.head? ≠ some '-' := by
        intro hbad; exact hch.1 '-' hbad ⟨rfl, rfl⟩
      have hd : decide (('-' : Char) = '-') = true := by decide
      constructor
      · rw [show collapseRunsAux (· = '-') '-' false ('-' :: t) =
            '-' :: collapseRunsAux (· = '-') '-' true t from rfl, iht hhead]
      · intro hcon; exact (hcon rfl).elim
    · have ha' : decide (a = '-') = false := by simpa using ha
      have step : ∀ b, collapseRunsAux (· = '-') '-' b (a :: t) =
          a :: collapseRunsAux (· = '-') '-' false t := by
        intro b
        cases b <;>
          simp only [collapseRunsAux, ha', Bool.false_eq_true, if_false]
      constructor
      · rw [step, ihf]
      · intro _; rw [step, ihf]

theorem trimEdgeHyphens_id {l : List Char} (h1 : l.head? ≠ some '-')
    (h2 : l.getLast? ≠ some '-') : trimEdgeHyphens l = l := by
  unfold trimEdgeHyphens dropLeadHyphen dropTrailHyphen
  rw [if_neg h1, if_neg h2]

theorem map_jsToLower_id {l : List Char} (h : ∀ c ∈ l, goodChar c) :
    l.map jsToLower = l := by
  rw [List.map_congr_left (fun c hc => goodChar_toLower_fixed (h c hc)),
    List.map_id']

theorem filter_keep_id {l : List Char} (h : ∀ c ∈ l, goodChar c) :
    l.filter keepChar = l :=
  List.filter_eq_self.mpr (fun c hc => goodChar_keep (h c hc))

/-- C2: the venue-name sanitizer is idempotent: for every string `x`,
`sanitize(sanitize(x))` equals `sanitize(x)`. -/
theorem sanitizeVenueName_idempotent (s : String) :
    sanitizeVenueName (sanitizeVenueName s) = sanitizeVenueName s := by
  apply String.ext
  rw [sanitize_data_eq (sanitizeVenueName s)]
  have hm : ∀ c ∈ (sanitizeVenueName s).data, goodChar c :=
    fun c hc => mem_sanitize_good hc
  simp only [collapseRuns]
  rw [map_jsToLower_id hm, filter_keep_id hm,
    collapseRunsAux_id false _ (fun c hc => goodChar_not_ws (hm c hc)),
    (collapseHyphens_id (sanitize_chain' s)).1,
    trimEdgeHyphens_id (sanitize_head s) (sanitize_getLast s)]

theorem shapeRun_of_inv : ∀ (l : List Char) (req : Bool),
    (∀ c ∈ l, goodChar c) → NoHyphenRun l → l.getLast? ≠ some '-' →
    (req = true → l ≠ [] ∧ l.head? ≠ some '-') →
    shapeRun req l = true := by
  intro l
  induction l with
  | nil =>
    intro req _ _ _ hreq
    cases req with
    | false => rfl
    | true => exact ((hreq rfl).1 rfl).elim
  | cons a t ih =>
    intro req hm hc hl hreq
    have hch := List.chain'_cons'.mp hc
    by_cases ha : a = '-'
    · subst ha
      have hreqf : req = false := by
        cases req with
        | false => rfl
        | true => exact ((hreq rfl).2 rfl).elim
      subst hreqf
      have ht_ne : t ≠ [] := by
        intro hbad; subst hbad; exact hl rfl
      have hlt : t.getLast? ≠ some '-' := by
        cases t with
        | nil => exact absurd rfl ht_ne
        | cons b t' => simpa using hl
      have hht : t.head? ≠ some '-' :=
        fun hbad => hch.1 '-' hbad ⟨rfl, rfl⟩
      have hrec := ih true (fun c hc' => hm c (List.mem_cons_of_mem _ hc'))
        hch.2 hlt (fun _ => ⟨ht_ne, hht⟩)
      simp [shapeRun, hrec]
    · have halnum : isLowerAlnum a = true := by
        rcases hm a (List.mem_cons_self a t) with h | h
        · exact h
        · exact absurd h ha
      have hlt : t.getLast? ≠ some '-' := by
        cases t with
        | nil => simp
        | cons b t' => simpa using hl
      have hrec := ih false (fun c hc' => hm c (List.mem_cons_of_mem _ hc'))
        hch.2 hlt (fun h => absurd h (by simp))
      simp [shapeRun, ha, halnum, hrec]

/-- C4: the venue-name sanitizer is total and its output is always
well-shaped: for every input string the result is either empty or matches
the regular expression `^[a-z0-9]+(-[a-z0-9]+)*$`. -/
theorem sanitizeVenueName_total_shape (s : String) :
    sanitizeVenueName s = "" ∨
      matchesVenueShape (sanitizeVenueName s).data = true := by
  cases hr : (sanitizeVenueName s).data with
  | nil =>
    left
    apply String.ext
    rw [hr]
  | cons a t =>
    right
    have hm : ∀ c ∈ (sanitizeVenueName s).data, goodChar c :=
      fun c hc => mem_sanitize_good hc
    have hc := sanitize_chain' s
    have hh := sanitize_head s
    have hl := sanitize_getLast s
    rw [hr] at hm hc hh hl
    have hrun : shapeRun true (a :: t) = true :=
      shapeRun_of_inv (a :: t) true hm hc hl
        (fun _ => ⟨List.cons_ne_nil a t, hh⟩)
    simp [matchesVenueShape, hrun]

/-- Modelled from the spec (§4.1), generic in the whitespace class `ws`:
"strip every character not in `[a-z0-9 <ws> -]`". -/
def specStrip (ws : Char → Bool) (l : List Char) : List Char :=
  l.filter (fun c => isLowerAlnum c || ws c || c = '-')

/-- Remove every trailing hyphen. -/
def dropTrailingHyphens (l : List Char) : List Char :=
  (l.reverse.dropWhile (· = '-')).reverse

/-- Modelled from the spec (§4.1): "trim leading/trailing hyphens". -/
def specTrimHyphens (l : List Char) : List Char :=
  dropTrailingHyphens (l.dropWhile (· = '-'))

/-- Modelled from the spec (§4.1), generic in the whitespace class:
lower-case, strip every character not in `[a-z0-9 <ws> -]`, collapse runs
of `ws`-characters to a single hyphen, collapse hyphen runs, trim
leading/trailing hyphens.  The claim's reading takes `ws` to be the
single space character; the code's regexes use the JS `\s` class. -/
def specSanitize (ws : Char → Bool) (s : String) : String :=
  ⟨specTrimHyphens
    (collapseRuns (· = '-') '-'
      (collapseRuns ws '-'
        (specStrip ws (s.data.map jsToLower))))⟩

theorem dropWhile_eq_self_of_head {p : Char → Bool} {l : List Char}
    (h : ∀ c, l.head? = some c → p c = false) : l.dropWhile p = l := by
  cases l with
  | nil => rfl
  | cons a t =>
    rw [List.dropWhile_cons]
    simp [h a rfl]

theorem dropLeadHyphen_eq_dropWhile {l : List Char} (h : NoHyphenRun l) :
    dropLeadHyphen l = l.dropWhile (· = '-') := by
  cases l with
  | nil => rfl
  | cons a t =>
    by_cases ha : a = '-'
    · subst ha
      have hhead := (List.chain'_cons'.mp h).1
      have ht : t.dropWhile (· = '-') = t :=
        dropWhile_eq_self_of_head (fun c hc => by
          have hne := hhead c hc
          simp only [decide_eq_false_iff_not]
          intro hcon
          exact hne ⟨rfl, hcon⟩)
      unfold dropLeadHyphen
      rw [if_pos (by simp : (('-' :: t).head? = some '-')),
        List.dropWhile_cons]
      simp [ht]
    · unfold dropLeadHyphen
      rw [if_neg (by simp [ha]), List.dropWhile_cons, if_neg (by simp [ha])]

theorem dropTrailHyphen_eq_dropTrailing {l : List Char} (h : NoHyphenRun l) :
    dropTrailHyphen l = dropTrailingHyphens l := by
  unfold dropTrailHyphen dropTrailingHyphens
  by_cases hl : l.getLast? = some '-'
  · rw [if_pos hl]
    have hrev : l.reverse = '-' :: l.dropLast.reverse := by
      conv_lhs => rw [← List.dropLast_append_getLast? _ hl]
      rw [List.reverse_append]
      simp
    have hhead2 : ∀ c, l.dropLast.reverse.head? = some c →
        decide (c = '-') = false := by
      intro c hc
      rw [List.head?_reverse] at hc
      have hnot := getLast?_dropLast_not_hyphen h hl
      simp only [decide_eq_false_iff_not]
      intro hcon
      subst hcon
      exact hnot hc
    rw [hrev, List.dropWhile_cons, if_pos (by decide),
      dropWhile_eq_self_of_head hhead2, List.reverse_reverse]
  · rw [if_neg hl]
    have hhead : ∀ c, l.reverse.head? = some c → decide (c = '-') = false := by
      intro c hc
      rw [List.head?_reverse] at hc
      simp only [decide_eq_false_iff_not]
      intro hcon
      subst hcon
      exact hl hc
    rw [dropWhile_eq_self_of_head hhead, List.reverse_reverse]

theorem trim_eq_specTrim {l : List Char} (h : NoHyphenRun l) :
    trimEdgeHyphens l = specTrimHyphens l := by
  unfold trimEdgeHyphens specTrimHyphens
  have hx : NoHyphenRun (l.dropWhile (· = '-')) := by
    rw [← dropLeadHyphen_eq_dropWhile h]
    exact dropLeadHyphen_chain' h
  rw [dropLeadHyphen_eq_dropWhile h]
  exact dropTrailHyphen_eq_dropTrailing hx

/-- C3 (counterexample): on the input `"a\tb"` the code's sanitizer keeps
the tab (JS `\s` in the strip class) and collapses it to a hyphen,
producing `"a-b"`, while the claim's algorithm — which strips every
character not in `[a-z0-9 -]`, space only — deletes the tab and produces
`"ab"`. -/
theorem sanitizeVenueName_claim3_counterexample :
    sanitizeVenueName "a\tb" ≠ specSanitize (fun c => c = ' ') "a\tb" ∧
    sanitizeVenueName "a\tb" = "a-b" ∧
    specSanitize (fun c => c = ' ') "a\tb" = "ab" := by
  decide

/-- C3 (amended): the venue-name sanitizer computes the specified
algorithm with the strip-and-collapse class taken to be JS whitespace
(`\s`) rather than the space character only; the claim's two concrete
examples hold as stated. -/
theorem sanitizeVenueName_algorithm_amended :
    (∀ s : String, sanitizeVenueName s = specSanitize jsWhitespace s) ∧
    sanitizeVenueName "Grand Ballroom!!" = "grand-ballroom" ∧
    sanitizeVenueName "  --Multi   Space--  " = "multi-space" := by
  refine ⟨?_, by decide, by decide⟩
  intro s
  apply String.ext
  exact trim_eq_specTrim (chain'_collapseHyphens false _)

/-- C6: `generateFolderPath` returns `sanitize(venue)` alone when the
category is empty and `sanitize(venue) ++ "/" ++ sanitizeCategory(category)`
when it is non-empty, with the claim's two concrete examples. -/
theorem generateFolderPath_contract :
    (∀ venue category : String, category = "" →
      generateFolderPath venue category = sanitizeVenueName venue) ∧
    (∀ venue category : String, category ≠ "" →
      generateFolderPath venue category =
        sanitizeVenueName venue ++ "/" ++ sanitizeCategory category) ∧
    generateFolderPath "The Grand Hotel" "" = "the-grand-hotel" ∧
    generateFolderPath "The Grand Hotel" "Ceremony" =
      "the-grand-hotel/ceremony" := by
  refine ⟨?_, ?_, by decide, by decide⟩
  · intro v c h
    subst h
    simp [generateFolderPath]
  · intro v c h
    simp [generateFolderPath, h]

/-- Witness for `generateFolderPath_contract` at concrete inputs. -/
theorem generateFolderPath_contract_witness :
    generateFolderPath "The Grand Hotel" "" =
      sanitizeVenueName "The Grand Hotel" ∧
    generateFolderPath "The Grand Hotel" "Ceremony" =
      sanitizeVenueName "The Grand Hotel" ++ "/" ++
        sanitizeCategory "Ceremony" :=
  ⟨generateFolderPath_contract.1 "The Grand Hotel" "" rfl,
   generateFolderPath_contract.2.1 "The Grand Hotel" "Ceremony" (by decide)⟩

/-- C7: `getFileCategory` returns "image" exactly for `image/*` types,
"document" exactly for non-image types that are `application/pdf` or
contain "document" or "word", and "other" otherwise; with the claim's
three concrete examples. -/
theorem getFileCategory_contract (m : String) :
    (getFileCategory m = "image" ↔ jsStartsWith m "image/" = true) ∧
    (getFileCategory m = "document" ↔
      (jsStartsWith m "image/" = false ∧
        (m = "application/pdf" ∨ jsIncludes m "document" = true ∨
          jsIncludes m "word" = true))) ∧
    (getFileCategory m = "other" ↔
      (jsStartsWith m "image/" = false ∧ m ≠ "application/pdf" ∧
        jsIncludes m "document" = false ∧ jsIncludes m "word" = false)) ∧
    getFileCategory "image/png" = "image" ∧
    getFileCategory "application/pdf" = "document" ∧
    getFileCategory "text/csv" = "other" := by
  have hid : ("image" : String) ≠ "document" := by decide
  have hio : ("image" : String) ≠ "other" := by decide
  have hdi : ("document" : String) ≠ "image" := by decide
  have hdo : ("document" : String) ≠ "other" := by decide
  have hoi : ("other" : String) ≠ "image" := by decide
  have hod : ("other" : String) ≠ "document" := by decide
  refine ⟨?_, ?_, ?_, by decide, by decide, by decide⟩
  · unfold getFileCategory
    by_cases h1 : jsStartsWith m "image/" = true
    · simp [h1]
    · have h1' : jsStartsWith m "image/" = false := by simpa using h1
      rw [if_neg h1]
      split <;> simp [hdi, hoi, h1']
  · unfold getFileCategory
    by_cases h1 : jsStartsWith m "image/" = true
    · simp [h1, hid]
    · have h1' : jsStartsWith m "image/" = false := by simpa using h1
      rw [if_neg h1]
      split
      · rename_i hC
        simp only [Bool.or_eq_true, decide_eq_true_eq] at hC
        constructor
        · intro _
          refine ⟨h1', ?_⟩
          rcases hC with (h | h) | h
          · exact Or.inl h
          · exact Or.inr (Or.inl h)
          · exact Or.inr (Or.inr h)
        · intro _
          rfl
      · rename_i hC
        simp only [Bool.or_eq_true, decide_eq_true_eq, not_or,
          Bool.not_eq_true] at hC
        constructor
        · intro h
          exact absurd h hod
        · rintro ⟨-, h | h | h⟩
          · exact absurd h hC.1.1
          · exact absurd h (by simp [hC.1.2])
          · exact absurd h (by simp [hC.2])
  · unfold getFileCategory
    by_cases h1 : jsStartsWith m "image/" = true
    · simp [h1, hio]
    · have h1' : jsStartsWith m "image/" = false := by simpa using h1
      rw [if_neg h1]
      split
      · rename_i hC
        simp only [Bool.or_eq_true, decide_eq_true_eq] at hC
        constructor
        · intro h
          exact absurd h hdo
        · rintro ⟨-, hpdf, hdoc, hword⟩
          rcases hC with (h | h) | h
          · exact absurd h hpdf
          · exact absurd h (by simp [hdoc])
          · exact absurd h (by simp [hword])
      · rename_i hC
        simp only [Bool.or_eq_true, decide_eq_true_eq, not_or,
          Bool.not_eq_true] at hC
        constructor
        · intro _
          exact ⟨h1', hC.1.1, hC.1.2, hC.2⟩
        · intro _
          rfl

/-- C8: the authentication middleware yields exactly one of three
distinct errors, decided in this order: missing token, then missing
server secret, then mismatching token; and the request proceeds exactly
when a non-falsy token equals a non-falsy configured secret. -/
theorem authenticateToken_contract
    (authHeader queryToken accessToken : Option String) :
    (authenticateToken authHeader queryToken accessToken =
        .missingCredential ↔
      jsFalsy (extractToken authHeader queryToken) = true) ∧
    (authenticateToken authHeader queryToken accessToken =
        .serverMisconfigured ↔
      (jsFalsy (extractToken authHeader queryToken) = false ∧
        jsFalsy accessToken = true)) ∧
    (authenticateToken authHeader queryToken accessToken =
        .invalidCredential ↔
      (jsFalsy (extractToken authHeader queryToken) = false ∧
        jsFalsy accessToken = false ∧
        extractToken authHeader queryToken ≠ accessToken)) ∧
    (authenticateToken authHeader queryToken accessToken = .authorized ↔
      (jsFalsy (extractToken authHeader queryToken) = false ∧
        jsFalsy accessToken = false ∧
        extractToken authHeader queryToken = accessToken)) := by
  unfold authenticateToken
  by_cases h1 : jsFalsy (extractToken authHeader queryToken) = true
  · simp [h1]
  · have h1' : jsFalsy (extractToken authHeader queryToken) = false := by
      simpa using h1
    by_cases h2 : jsFalsy accessToken = true
    · simp [h1', h2]
    · have h2' : jsFalsy accessToken = false := by simpa using h2
      by_cases h3 : extractToken authHeader queryToken = accessToken
      · simp [h1', h2', h3]
      · simp [h1', h2', h3]

example :
    authenticateToken (some "Bearer s3cret") none (some "s3cret") =
      .authorized := by decide
example :
    authenticateToken none none (some "s3cret") = .missingCredential := by
  decide
example :
    authenticateToken (some "Bearer x") none none = .serverMisconfigured := by
  decide
example :
    authenticateToken none (some "wrong") (some "s3cret") =
      .invalidCredential := by decide
example :
    authenticateToken (some "Bearer") (some "s3cret") (some "s3cret") =
      .authorized := by decide

theorem jsTimestampFormat_length {iso : String} (h : 19 ≤ iso.length) :
    (jsTimestampFormat iso).length = 19 := by
  have h' : 19 ≤ iso.data.length := h
  show (((iso.data.map replaceColonDot).take 19).drop 0).length = 19
  rw [List.drop_zero, List.length_take, List.length_map]
  omega

theorem jsSlice8_length {u : String} (h : 8 ≤ u.length) :
    (jsSlice u 0 8).length = 8 := by
  have h' : 8 ≤ u.data.length := h
  show ((u.data.take 8).drop 0).length = 8
  rw [List.drop_zero, List.length_take]
  omega

/-- C1 (counterexample): two calls at distinct instants falling in the
same second — ISO strings differing only in the millisecond field — with
the same random suffix produce the same object name, so calls differing
in `now` do not always produce different outputs. -/
theorem generateFileName_same_second_collision :
    ("2026-10-11T12:00:00.100Z" : String) ≠ "2026-10-11T12:00:00.900Z" ∧
    generateFileName "Oakview Manor" "menu.pdf" ""
        "2026-10-11T12:00:00.100Z" "0a1b2c3d-4e5f-6071-8293-a4b5c6d7e8f9" =
      generateFileName "Oakview Manor" "menu.pdf" ""
        "2026-10-11T12:00:00.900Z" "0a1b2c3d-4e5f-6071-8293-a4b5c6d7e8f9" := by
  decide

/-- C1 (amended): two calls of `generateFileName` with the same venue,
category and original name differ whenever their formatted
second-precision timestamps differ or their 8-character sliced suffixes
differ, under the shape facts true of the real arguments (ISO strings
have at least 19 characters, uuids at least 8).  In particular two
invocations with the same timestamp and distinct 8-character suffixes
yield distinct names. -/
theorem generateFileName_distinct
    (venue originalName category iso1 iso2 u1 u2 : String)
    (hi1 : 19 ≤ iso1.length) (hi2 : 19 ≤ iso2.length)
    (hu1 : 8 ≤ u1.length) (hu2 : 8 ≤ u2.length)
    (hne : jsTimestampFormat iso1 ≠ jsTimestampFormat iso2 ∨
      jsSlice u1 0 8 ≠ jsSlice u2 0 8) :
    generateFileName venue originalName category iso1 u1 ≠
      generateFileName venue originalName category iso2 u2 := by
  intro heq
  have hlts : (jsTimestampFormat iso1).data.length =
      (jsTimestampFormat iso2).data.length := by
    have e1 : (jsTimestampFormat iso1).length = 19 := jsTimestampFormat_length hi1
    have e2 : (jsTimestampFormat iso2).length = 19 := jsTimestampFormat_length hi2
    show (jsTimestampFormat iso1).length = (jsTimestampFormat iso2).length
    rw [e1, e2]
  have hlq : (jsSlice u1 0 8).data.length = (jsSlice u2 0 8).data.length := by
    have e1 : (jsSlice u1 0 8).length = 8 := jsSlice8_length hu1
    have e2 : (jsSlice u2 0 8).length = 8 := jsSlice8_length hu2
    show (jsSlice u1 0 8).length = (jsSlice u2 0 8).length
    rw [e1, e2]
  simp only [generateFileName] at heq
  by_cases hcat : category = ""
  · rw [if_pos hcat, if_pos hcat] at heq
    have hd := congrArg String.data heq
    simp only [String.data_append, List.append_assoc] at hd
    have s1 := List.append_cancel_left hd
    have s2 := List.append_cancel_left s1
    obtain ⟨hts_eq, s3⟩ := List.append_inj s2 hlts
    have s4 := List.append_cancel_left s3
    obtain ⟨hq_eq, -⟩ := List.append_inj s4 hlq
    rcases hne with hne | hne
    · exact hne (String.ext hts_eq)
    · exact hne (String.ext hq_eq)
  · rw [if_neg hcat, if_neg hcat] at heq
    have hd := congrArg String.data heq
    simp only [String.data_append, List.append_assoc] at hd
    have s1 := List.append_cancel_left hd
    have s2 := List.append_cancel_left s1
    have s3 := List.append_cancel_left s2
    have s4 := List.append_cancel_left s3
    obtain ⟨hts_eq, s5⟩ := List.append_inj s4 hlts
    have s6 := List.append_cancel_left s5
    obtain ⟨hq_eq, -⟩ := List.append_inj s6 hlq
    rcases hne with hne | hne
    · exact hne (String.ext hts_eq)
    · exact hne (String.ext hq_eq)

/-- Witness for `generateFileName_distinct`: same venue, category and
timestamp, two uuids differing in their first 8 characters. -/
theorem generateFileName_distinct_witness :
    generateFileName "Oakview Manor" "menu.pdf" ""
        "2026-10-11T12:00:00.123Z" "aaaaaaaa-1111-2222-3333-444444444444" ≠
      generateFileName "Oakview Manor" "menu.pdf" ""
        "2026-10-11T12:00:00.123Z" "bbbbbbbb-1111-2222-3333-444444444444" :=
  generateFileName_distinct "Oakview Manor" "menu.pdf" ""
    "2026-10-11T12:00:00.123Z" "2026-10-11T12:00:00.123Z"
    "aaaaaaaa-1111-2222-3333-444444444444"
    "bbbbbbbb-1111-2222-3333-444444444444"
    (by decide) (by decide) (by decide) (by decide) (Or.inr (by decide))

/-- Shape of a `Date.prototype.toISOString` result
`YYYY-MM-DDTHH:MM:SS.mmmZ`: 24 characters, digits at the date and time
positions (the three millisecond characters are unconstrained, as the
format slices them away). -/
def isoShape (s : String) : Prop :=
  ∃ y1 y2 y3 y4 mo1 mo2 d1 d2 h1 h2 mi1 mi2 s1 s2 f1 f2 f3 : Char,
    s.data = [y1, y2, y3, y4, '-', mo1, mo2, '-', d1, d2, 'T', h1, h2, ':',
      mi1, mi2, ':', s1, s2, '.', f1, f2, f3, 'Z'] ∧
    y1.isDigit = true ∧ y2.isDigit = true ∧ y3.isDigit = true ∧
    y4.isDigit = true ∧ mo1.isDigit = true ∧ mo2.isDigit = true ∧
    d1.isDigit = true ∧ d2.isDigit = true ∧ h1.isDigit = true ∧
    h2.isDigit = true ∧ mi1.isDigit = true ∧ mi2.isDigit = true ∧
    s1.isDigit = true ∧ s2.isDigit = true

theorem replaceColonDot_digit {c : Char} (h : c.isDigit = true) :
    replaceColonDot c = c := by
  have hc : ¬((decide (c = ':') || decide (c = '.')) = true) := by
    simp only [Bool.or_eq_true, decide_eq_true_eq, not_or]
    exact ⟨fun hcon => by subst hcon; exact absurd h (by decide),
      fun hcon => by subst hcon; exact absurd h (by decide)⟩
  unfold replaceColonDot
  rw [if_neg hc]

theorem digit_not_colon_dot {c : Char} (h : c.isDigit = true) :
    c ≠ ':' ∧ c ≠ '.' :=
  ⟨fun hcon => by subst hcon; exact absurd h (by decide),
   fun hcon => by subst hcon; exact absurd h (by decide)⟩

/-- C5: for an upload with venue "Oakview Manor", no category and file
"menu.pdf", the derived folder is "oakview-manor" and the derived object
name is `oakview-manor_<timestamp>_<8-char-id>.pdf`, where the timestamp
is 19 characters long with exactly 14 digits and contains no colon or
period (both replaced by hyphens), and the id is 8 characters long. -/
theorem upload_scenario_oakview (iso uuid : String) (hiso : isoShape iso)
    (huuid : 8 ≤ uuid.length) :
    generateFolderPath "Oakview Manor" "" = "oakview-manor" ∧
    generateFileName "Oakview Manor" "menu.pdf" "" iso uuid =
      "oakview-manor_" ++ jsTimestampFormat iso ++ "_" ++
        jsSlice uuid 0 8 ++ ".pdf" ∧
    (jsTimestampFormat iso).length = 19 ∧
    (jsTimestampFormat iso).data.countP Char.isDigit = 14 ∧
    (∀ c ∈ (jsTimestampFormat iso).data, c ≠ ':' ∧ c ≠ '.') ∧
    (jsSlice uuid 0 8).length = 8 := by
  obtain ⟨y1, y2, y3, y4, mo1, mo2, d1, d2, hh1, hh2, mi1, mi2, ss1, ss2,
    f1, f2, f3, hdata, hy1, hy2, hy3, hy4, hmo1, hmo2, hd1, hd2, hhh1, hhh2,
    hmi1, hmi2, hss1, hss2⟩ := hiso
  have e1 : replaceColonDot '-' = '-' := by decide
  have e2 : replaceColonDot 'T' = 'T' := by decide
  have e3 : replaceColonDot ':' = '-' := by decide
  have e4 : replaceColonDot '.' = '-' := by decide
  have e5 : replaceColonDot 'Z' = 'Z' := by decide
  have hmap : iso.data.map replaceColonDot =
      [y1, y2, y3, y4, '-', mo1, mo2, '-', d1, d2, 'T', hh1, hh2, '-',
        mi1, mi2, '-', ss1, ss2] ++
      ['-', replaceColonDot f1, replaceColonDot f2, replaceColonDot f3,
        'Z'] := by
    rw [hdata]
    simp only [List.map_cons, List.map_nil, List.cons_append,
      List.nil_append, replaceColonDot_digit hy1, replaceColonDot_digit hy2,
      replaceColonDot_digit hy3, replaceColonDot_digit hy4,
      replaceColonDot_digit hmo1, replaceColonDot_digit hmo2,
      replaceColonDot_digit hd1, replaceColonDot_digit hd2,
      replaceColonDot_digit hhh1, replaceColonDot_digit hhh2,
      replaceColonDot_digit hmi1, replaceColonDot_digit hmi2,
      replaceColonDot_digit hss1, replaceColonDot_digit hss2,
      e1, e2, e3, e4, e5]
  have hts : (jsTimestampFormat iso).data =
      [y1, y2, y3, y4, '-', mo1, mo2, '-', d1, d2, 'T', hh1, hh2, '-',
        mi1, mi2, '-', ss1, ss2] := by
    show ((iso.data.map replaceColonDot).take 19).drop 0 = _
    rw [List.drop_zero, hmap]
    exact List.take_left' rfl
  have hsv : sanitizeVenueName "Oakview Manor" = "oakview-manor" := by decide
  have hext : jsToLowerString (extname "menu.pdf") = ".pdf" := by decide
  refine ⟨by decide, ?_, ?_, ?_, ?_, ?_⟩
  · simp only [generateFileName]
    rw [if_pos trivial, hsv, hext,
      show ("oakview-manor" ++ "_" : String) = "oakview-manor_" by decide]
  · show (jsTimestampFormat iso).data.length = 19
    rw [hts]
    rfl
  · rw [hts]
    simp [List.countP_cons, hy1, hy2, hy3, hy4, hmo1, hmo2, hd1, hd2,
      hhh1, hhh2, hmi1, hmi2, hss1, hss2,
      show Char.isDigit '-' = false from by decide,
      show Char.isDigit 'T' = false from by decide]
  · intro c hc
    rw [hts] at hc
    simp only [List.mem_cons, List.not_mem_nil, or_false] at hc
    rcases hc with rfl | rfl | rfl | rfl | rfl | rfl | rfl | rfl | rfl |
      rfl | rfl | rfl | rfl | rfl | rfl | rfl | rfl | rfl | rfl
    · exact digit_not_colon_dot hy1
    · exact digit_not_colon_dot hy2
    · exact digit_not_colon_dot hy3
    · exact digit_not_colon_dot hy4
    · exact (by decide)
    · exact digit_not_colon_dot hmo1
    · exact digit_not_colon_dot hmo2
    · exact (by decide)
    · exact digit_not_colon_dot hd1
    · exact digit_not_colon_dot hd2
    · exact (by decide)
    · exact digit_not_colon_dot hhh1
    · exact digit_not_colon_dot hhh2
    · exact (by decide)
    · exact digit_not_colon_dot hmi1
    · exact digit_not_colon_dot hmi2
    · exact (by decide)
    · exact digit_not_colon_dot hss1
    · exact digit_not_colon_dot hss2
  · exact jsSlice8_length huuid

/-- Witness for `upload_scenario_oakview` at a concrete instant and
uuid. -/
theorem upload_scenario_oakview_witness :
    generateFolderPath "Oakview Manor" "" = "oakview-manor" ∧
    generateFileName "Oakview Manor" "menu.pdf" "" "2026-03-04T05:06:07.890Z"
        "0a1b2c3d-4e5f-6071-8293-a4b5c6d7e8f9" =
      "oakview-manor_" ++ jsTimestampFormat "2026-03-04T05:06:07.890Z" ++
        "_" ++ jsSlice "0a1b2c3d-4e5f-6071-8293-a4b5c6d7e8f9" 0 8 ++
        ".pdf" ∧
    (jsTimestampFormat "2026-03-04T05:06:07.890Z").length = 19 ∧
    (jsTimestampFormat "2026-03-04T05:06:07.890Z").data.countP
      Char.isDigit = 14 ∧
    (∀ c ∈ (jsTimestampFormat "2026-03-04T05:06:07.890Z").data,
      c ≠ ':' ∧ c ≠ '.') ∧
    (jsSlice "0a1b2c3d-4e5f-6071-8293-a4b5c6d7e8f9" 0 8).length = 8 :=
  upload_scenario_oakview "2026-03-04T05:06:07.890Z"
    "0a1b2c3d-4e5f-6071-8293-a4b5c6d7e8f9"
    ⟨'2', '0', '2', '6', '0', '3', '0', '4', '0', '5', '0', '6', '0', '7',
      '8', '9', '0', rfl, by decide⟩
    (by decide)

theorem uploadFilesGo_length (storage : Nat → StorageOutcome)
    (v c : String) (env : Nat → String × String) :
    ∀ (i : Nat) (fs : List JsFile),
      (uploadFilesGo storage v c env i fs).length = fs.length := by
  intro i fs
  induction fs generalizing i with
  | nil => rfl
  | cons f t ih => simp [uploadFilesGo, ih]

theorem uploadFilesGo_getElem (storage : Nat → StorageOutcome)
    (v c : String) (env : Nat → String × String) :
    ∀ (fs : List JsFile) (i j : Nat) (h : j < fs.length),
      (uploadFilesGo storage v c env i fs)[j]? =
        some (uploadOneFile storage v c env (i + j) (fs.get ⟨j, h⟩)) := by
  intro fs
  induction fs with
  | nil => intro i j h; simp at h
  | cons f t ih =>
    intro i j h
    cases j with
    | zero => simp [uploadFilesGo]
    | succ j' =>
      have h' : j' < t.length := by simpa using h
      rw [show uploadFilesGo storage v c env i (f :: t) =
          uploadOneFile storage v c env i f ::
            uploadFilesGo storage v c env (i + 1) t from rfl,
        List.getElem?_cons_succ, ih (i + 1) j' h']
      have harith : i + 1 + j' = i + (j' + 1) := by omega
      rw [harith]
      rfl

/-- C9 (counterexample): in `GET /api/venues` a failed per-bucket storage
listing is logged and skipped, and the request still succeeds — it is not
reported as a whole-request failure. -/
theorem list_failure_not_whole_request :
    (fun b => if b = "photos" then Except.error "network failure"
      else Except.ok ([] : List String)) "photos" =
      Except.error "network failure" ∧
    (listVenuesHandler ["photos", "menus", "pricing"]
      (fun b => if b = "photos" then Except.error "network failure"
        else Except.ok [])).success = true := by
  exact ⟨by simp, rfl⟩

/-- C9 (amended): a failed remote storage call is reported per-file for
uploads — one result per input file, each result depending only on its
own file and its own call outcome, with `success = false` exactly when
that call errored — and as a whole-request failure for delete operations;
for the venue-list operation a failed per-bucket listing is skipped and
the request still succeeds. -/
theorem storage_failure_reporting :
    (∀ storage venueName category? env files,
      (uploadFilesToBucket storage venueName category? env files).length =
        files.length) ∧
    (∀ storage venueName category? env files j (h : j < files.length),
      (uploadFilesToBucket storage venueName category? env files)[j]? =
        some (uploadOneFile storage venueName (category?.getD "") env j
          (files.get ⟨j, h⟩))) ∧
    (∀ storage venueName category env i f,
      (uploadOneFile storage venueName category env i f).success = false ↔
        ∃ m, storage i = StorageOutcome.err m) ∧
    (∀ buckets venueName bucket fileName removeOutcome m,
      buckets.contains bucket = true →
      removeOutcome (venueName ++ "/" ++ fileName) =
        StorageOutcome.err m →
      deleteFileHandler buckets venueName bucket fileName removeOutcome =
        DeleteResponse.deleteFailed) ∧
    (∀ buckets listOutcome,
      (listVenuesHandler buckets listOutcome).success = true) := by
  refine ⟨?_, ?_, ?_, ?_, ?_⟩
  · intro storage venueName category? env files
    exact uploadFilesGo_length storage venueName (category?.getD "") env 0
      files
  · intro storage venueName category? env files j h
    show (uploadFilesGo storage venueName (category?.getD "") env 0
      files)[j]? = _
    rw [uploadFilesGo_getElem storage venueName (category?.getD "") env
      files 0 j h]
    rw [Nat.zero_add]
  · intro storage venueName category env i f
    cases hs : storage i with
    | ok => simp [uploadOneFile, hs]
    | err m => simp [uploadOneFile, hs]
  · intro buckets venueName bucket fileName removeOutcome m hb hrm
    unfold deleteFileHandler
    rw [if_neg (not_not_intro hb)]
    simp [hrm]
  · intro buckets listOutcome
    rfl

/-- Witness for `storage_failure_reporting` at concrete inputs: a
two-file upload whose first storage call fails, a delete whose remove
call fails, and a venue listing with a failing bucket. -/
theorem storage_failure_reporting_witness :
    (uploadFilesToBucket
      (fun i => if i = 0 then StorageOutcome.err "network failure"
        else StorageOutcome.ok)
      "Oakview Manor" none
      (fun _ => ("2026-10-11T12:00:00.123Z",
        "0a1b2c3d-4e5f-6071-8293-a4b5c6d7e8f9"))
      [⟨"menu.pdf", "application/pdf", 2048⟩,
       ⟨"photo.png", "image/png", 100⟩]).length = 2 ∧
    ((uploadOneFile
      (fun i => if i = 0 then StorageOutcome.err "network failure"
        else StorageOutcome.ok)
      "Oakview Manor" ""
      (fun _ => ("2026-10-11T12:00:00.123Z",
        "0a1b2c3d-4e5f-6071-8293-a4b5c6d7e8f9"))
      0 ⟨"menu.pdf", "application/pdf", 2048⟩).success = false ↔
      ∃ m, (fun i => if i = 0 then StorageOutcome.err "network failure"
        else StorageOutcome.ok) 0 = StorageOutcome.err m) ∧
    deleteFileHandler ["photos", "menus", "pricing"] "oakview-manor"
      "photos" "x.pdf" (fun _ => StorageOutcome.err "boom") =
      DeleteResponse.deleteFailed ∧
    (listVenuesHandler ["photos", "menus", "pricing"]
      (fun _ => Except.error "boom")).success = true :=
  ⟨storage_failure_reporting.1
    (fun i => if i = 0 then StorageOutcome.err "network failure"
      else StorageOutcome.ok)
    "Oakview Manor" none
    (fun _ => ("2026-10-11T12:00:00.123Z",
      "0a1b2c3d-4e5f-6071-8293-a4b5c6d7e8f9"))
    [⟨"menu.pdf", "application/pdf", 2048⟩,
     ⟨"photo.png", "image/png", 100⟩],
   storage_failure_reporting.2.2.1
    (fun i => if i = 0 then StorageOutcome.err "network failure"
      else StorageOutcome.ok)
    "Oakview Manor" ""
    (fun _ => ("2026-10-11T12:00:00.123Z",
      "0a1b2c3d-4e5f-6071-8293-a4b5c6d7e8f9"))
    0 ⟨"menu.pdf", "application/pdf", 2048⟩,
   storage_failure_reporting.2.2.2.1 ["photos", "menus", "pricing"]
    "oakview-manor" "photos" "x.pdf" (fun _ => StorageOutcome.err "boom")
    "boom" (by decide) rfl,
   storage_failure_reporting.2.2.2.2 ["photos", "menus", "pricing"]
    (fun _ => Except.error "boom")⟩

/-- C10: when the venue name is present, the photos upload succeeds with
request-level `category` equal to the supplied category when non-empty
and `"general"` otherwise, while each successful per-file result carries
`getFileCategory(mimeType)` — the advisory classification, not the
request's category tag. -/
theorem photos_category_fields (storage : Nat → StorageOutcome)
    (env : Nat → String × String) (bucket : String)
    (venueName category? : Option String) (files : List JsFile)
    (hv : jsFalsy venueName = false) :
    ∃ resp, photosHandler storage env bucket venueName category? files =
        Except.ok resp ∧
      resp.category =
        (if jsFalsy category? then "general" else category?.getD "") ∧
      resp.uploads.length = files.length ∧
      ∀ j (h : j < files.length),
        resp.uploads[j]? = some (uploadOneFile storage (venueName.getD "")
          (category?.getD "") env j (files.get ⟨j, h⟩)) ∧
        ((uploadOneFile storage (venueName.getD "") (category?.getD "")
            env j (files.get ⟨j, h⟩)).success = true →
          (uploadOneFile storage (venueName.getD "") (category?.getD "")
            env j (files.get ⟨j, h⟩)).category =
            some (getFileCategory (files.get ⟨j, h⟩).mimetype)) := by
  have hcond : ¬(jsFalsy venueName = true) := by simp [hv]
  refine ⟨{ success := true,
            uploads := uploadFilesToBucket storage (venueName.getD "")
              category? env files,
            bucket := bucket,
            venue := venueName.getD "",
            category := if jsFalsy category? then "general"
              else category?.getD "" }, ?_, rfl, ?_, ?_⟩
  · unfold photosHandler
    rw [if_neg hcond]
  · exact uploadFilesGo_length storage (venueName.getD "")
      (category?.getD "") env 0 files
  · intro j h
    constructor
    · show (uploadFilesGo storage (venueName.getD "") (category?.getD "")
        env 0 files)[j]? = _
      rw [uploadFilesGo_getElem storage (venueName.getD "")
        (category?.getD "") env files 0 j h, Nat.zero_add]
    · intro hsucc
      unfold uploadOneFile at hsucc ⊢
      cases hs : storage j with
      | ok => simp [hs]
      | err m => rw [hs] at hsucc; simp at hsucc

/-- Witness for `photos_category_fields` at a concrete request. -/
theorem photos_category_fields_witness :
    ∃ resp, photosHandler (fun _ => StorageOutcome.ok)
        (fun _ => ("2026-10-11T12:00:00.123Z",
          "0a1b2c3d-4e5f-6071-8293-a4b5c6d7e8f9"))
        "photos" (some "Oakview Manor") (some "Ceremony")
        [⟨"menu.pdf", "application/pdf", 2048⟩] = Except.ok resp ∧
      resp.category = (if jsFalsy (some "Ceremony") then "general"
        else (some "Ceremony").getD "") ∧
      resp.uploads.length =
        ([⟨"menu.pdf", "application/pdf", 2048⟩] : List JsFile).length ∧
      ∀ j (h : j <
          ([⟨"menu.pdf", "application/pdf", 2048⟩] : List JsFile).length),
        resp.uploads[j]? = some (uploadOneFile (fun _ => StorageOutcome.ok)
          ((some "Oakview Manor").getD "") ((some "Ceremony").getD "")
          (fun _ => ("2026-10-11T12:00:00.123Z",
            "0a1b2c3d-4e5f-6071-8293-a4b5c6d7e8f9")) j
          (([⟨"menu.pdf", "application/pdf", 2048⟩] :
            List JsFile).get ⟨j, h⟩)) ∧
        ((uploadOneFile (fun _ => StorageOutcome.ok)
            ((some "Oakview Manor").getD "") ((some "Ceremony").getD "")
            (fun _ => ("2026-10-11T12:00:00.123Z",
              "0a1b2c3d-4e5f-6071-8293-a4b5c6d7e8f9")) j
            (([⟨"menu.pdf", "application/pdf", 2048⟩] :
              List JsFile).get ⟨j, h⟩)).success = true →
          (uploadOneFile (fun _ => StorageOutcome.ok)
            ((some "Oakview Manor").getD "") ((some "Ceremony").getD "")
            (fun _ => ("2026-10-11T12:00:00.123Z",
              "0a1b2c3d-4e5f-6071-8293-a4b5c6d7e8f9")) j
            (([⟨"menu.pdf", "application/pdf", 2048⟩] :
              List JsFile).get ⟨j, h⟩)).category =
            some (getFileCategory
              ((([⟨"menu.pdf", "application/pdf", 2048⟩] :
                List JsFile).get ⟨j, h⟩)).mimetype)) :=
  photos_category_fields (fun _ => StorageOutcome.ok)
    (fun _ => ("2026-10-11T12:00:00.123Z",
      "0a1b2c3d-4e5f-6071-8293-a4b5c6d7e8f9"))
    "photos" (some "Oakview Manor") (some "Ceremony")
    [⟨"menu.pdf", "application/pdf", 2048⟩] (by decide)
